import Mathlib

/-!
Shallow embedding of the `vectorizer` repository (a small text-embedding
HTTP service) for specification checking.

The vector-math module (`cosineSimilarity`, `euclideanDistance`,
`normalizeVector`, `findSimilar`) operates on JavaScript `number[]`
values; we model numbers as real numbers `ℝ` and arrays as `List ℝ`.
Functions that `throw` are modelled as `Except String` values carrying
the thrown message.  `Array.prototype.sort` with the comparator
`(a, b) => b.similarity - a.similarity` is a stable sort placing larger
similarities first; we model it with `List.mergeSort` (stable) under the
boolean relation "left element's similarity is at least the right one's".
`Array.prototype.slice(0, topK)` is modelled by `jsSlice`, including the
JavaScript treatment of a negative end index as `length + end` clamped
at `0`.

The embedder lifecycle (module-level `let embedder: any = null`,
`initializeEmbedder`, `vectorize`, `vectorizeBatch`, `getModelInfo`) is
modelled by explicit state passing of an `Option H` singleton, with the
backend `pipeline` factory and the inference functions taken as opaque
parameters.  The scheduling of concurrent `initializeEmbedder` calls
across the `await pipeline(...)` suspension point is modelled by a small
interleaving semantics (`raceStep` / `raceRun`).
-/

namespace Vectorizer

/-- One entry of a `findSimilar` result: a candidate's position in the
input collection together with its cosine similarity to the query. -/
structure SimilarityResult where
  index : ℕ
  similarity : ℝ

/-- The accumulation loop `dotProduct += vectorA[i] * vectorB[i]` of
`cosineSimilarity` (the same loop with `a = b` yields the `normA`,
`normB` accumulators). -/
noncomputable def dotProduct : List ℝ → List ℝ → ℝ
  | a :: as, b :: bs => a * b + dotProduct as bs
  | _, _ => 0

/-- The norm `Math.sqrt` of the sum of squares of a vector, as computed
by `cosineSimilarity` and `normalizeVector`. -/
noncomputable def vecNorm (v : List ℝ) : ℝ := Real.sqrt (dotProduct v v)

open Classical in
/-- `cosineSimilarity(vectorA, vectorB)` from the vectorizer module:
throws on length mismatch, returns `0` when either sum of squares is
zero, otherwise `dot / (sqrt(normA) * sqrt(normB))`. -/
noncomputable def cosineSimilarity (vectorA vectorB : List ℝ) : Except String ℝ :=
  if vectorA.length ≠ vectorB.length then
    .error "Vectors must have the same length"
  else if dotProduct vectorA vectorA = 0 ∨ dotProduct vectorB vectorB = 0 then
    .ok 0
  else
    .ok (dotProduct vectorA vectorB /
      (Real.sqrt (dotProduct vectorA vectorA) * Real.sqrt (dotProduct vectorB vectorB)))

/-- The accumulation loop `sum += diff * diff` of `euclideanDistance`. -/
noncomputable def sumSqDiff : List ℝ → List ℝ → ℝ
  | a :: as, b :: bs => (a - b) * (a - b) + sumSqDiff as bs
  | _, _ => 0

/-- `euclideanDistance(vectorA, vectorB)` from the vectorizer module:
throws on length mismatch, otherwise `Math.sqrt` of the sum of squared
differences. -/
noncomputable def euclideanDistance (vectorA vectorB : List ℝ) : Except String ℝ :=
  if vectorA.length ≠ vectorB.length then
    .error "Vectors must have the same length"
  else
    .ok (Real.sqrt (sumSqDiff vectorA vectorB))

open Classical in
/-- `normalizeVector(vector)` from the vectorizer module: returns the
input when its norm is `0`, otherwise divides every component by the
norm. -/
noncomputable def normalizeVector (vector : List ℝ) : List ℝ :=
  let norm := Real.sqrt (dotProduct vector vector)
  if norm = 0 then vector
  else vector.map (fun val => val / norm)

open Classical in
/-- The ordering used by `similarities.sort((a, b) => b.similarity - a.similarity)`:
element `a` may precede element `b` exactly when the comparator is `≤ 0`,
i.e. when `b.similarity ≤ a.similarity`. -/
noncomputable def simLE (a b : SimilarityResult) : Bool :=
  decide (b.similarity ≤ a.similarity)

/-- JavaScript `array.slice(0, endIdx)`: a negative `endIdx` counts from
the end of the array (`length + endIdx`, clamped at `0`); an `endIdx`
past the end is clamped to the length. -/
def jsSlice {α : Type} (l : List α) (endIdx : Int) : List α :=
  l.take (if endIdx < 0 then ((l.length : Int) + endIdx).toNat else endIdx.toNat)

/-- The `vectors.map((vector, index) => ({index, similarity: cosineSimilarity(...)}))`
loop of `findSimilar`, threading the index and propagating the first
thrown error. -/
noncomputable def computeSimilarities (queryVector : List ℝ) :
    List (List ℝ) → ℕ → Except String (List SimilarityResult)
  | [], _ => .ok []
  | v :: rest, i =>
    match cosineSimilarity queryVector v, computeSimilarities queryVector rest (i + 1) with
    | .ok s, .ok tail => .ok (⟨i, s⟩ :: tail)
    | .error e, _ => .error e
    | .ok _, .error e => .error e

/-- `findSimilar(queryVector, vectors, topK)` from the vectorizer module:
computes all similarities (propagating any length-mismatch error), sorts
them descending by similarity with a stable sort, and takes
`slice(0, topK)`. -/
noncomputable def findSimilar (queryVector : List ℝ) (vectors : List (List ℝ))
    (topK : Int) : Except String (List SimilarityResult) :=
  match computeSimilarities queryVector vectors 0 with
  | .ok similarities => .ok (jsSlice (similarities.mergeSort simLE) topK)
  | .error e => .error e

/-- The pooling option of the embedding calls (`'mean' | 'cls'`). -/
inductive Pooling where
  | mean
  | cls
deriving DecidableEq

/-- The options record accepted by `vectorize` / `vectorizeBatch`.  In
the source all three fields are optional with defaults
`modelName = "Xenova/all-MiniLM-L6-v2"`, `pooling = mean`,
`normalize = true`; here callers always pass the resolved record. -/
structure EmbedOptions where
  modelName : String
  pooling : Pooling
  normalize : Bool

/-- `getModelInfo()` result shape. -/
structure ModelInfo where
  isInitialized : Bool

/-- `initializeEmbedder(modelName)`: if the module-level `embedder`
variable is still `null`, call the backend factory (`pipeline`) and
store the result; otherwise keep and return the existing handle.  The
factory may fail (`await` rejection), in which case the assignment never
happens and the error propagates.  Returns the updated module state
together with the returned handle (or error). -/
def initializeEmbedder {H : Type} (pipeline : String → Except String H)
    (modelName : String) (embedder : Option H) : Option H × Except String H :=
  match embedder with
  | some h => (some h, .ok h)
  | none =>
    match pipeline modelName with
    | .ok h => (some h, .ok h)
    | .error e => (none, .error e)

/-- `vectorize(text, options)`: ensures the embedder is initialized with
`options.modelName`, then runs the backend on the single text with the
given pooling/normalize flags.  The backend inference is the opaque
parameter `embed`. -/
def vectorize {H : Type} (pipeline : String → Except String H)
    (embed : H → String → Pooling → Bool → List ℝ)
    (text : String) (options : EmbedOptions) (embedder : Option H) :
    Option H × Except String (List ℝ) :=
  match initializeEmbedder pipeline options.modelName embedder with
  | (st, .ok h) => (st, .ok (embed h text options.pooling options.normalize))
  | (st, .error e) => (st, .error e)

/-- `vectorizeBatch(texts, options)`: same as `vectorize` but over a
batch of texts, with opaque batched inference `embedBatch`. -/
def vectorizeBatch {H : Type} (pipeline : String → Except String H)
    (embedBatch : H → List String → Pooling → Bool → List (List ℝ))
    (texts : List String) (options : EmbedOptions) (embedder : Option H) :
    Option H × Except String (List (List ℝ)) :=
  match initializeEmbedder pipeline options.modelName embedder with
  | (st, .ok h) => (st, .ok (embedBatch h texts options.pooling options.normalize))
  | (st, .error e) => (st, .error e)

/-- `getModelInfo()`: `isInitialized` is `embedder !== null`. -/
def getModelInfo {H : Type} (embedder : Option H) : ModelInfo :=
  ⟨embedder.isSome⟩

open Classical in
/-- `getSimilarity(similarity)` from the HTTP layer (`src/index.ts`):
the categorical label chosen by strict threshold comparisons. -/
noncomputable def getSimilarity (similarity : ℝ) : String :=
  if similarity > 0.8 then "Very similar"
  else if similarity > 0.6 then "Similar"
  else if similarity > 0.4 then "Somewhat similar"
  else "Not similar"

open Classical in
/-- The inline interpretation ternary of the `/similarity` route in
`src/helpers/index.ts`, with the same thresholds. -/
noncomputable def similarityInterpretation (similarity : ℝ) : String :=
  if similarity > 0.8 then "Very similar"
  else if similarity > 0.6 then "Similar"
  else if similarity > 0.4 then "Somewhat similar"
  else "Not similar"

/-- Program counter of one caller running `initializeEmbedder`
concurrently: `ready` = about to evaluate `if (!embedder)`;
`pending` = saw `null` and is awaiting `pipeline(...)`;
`finished` = returned. -/
inductive RacePC where
  | ready
  | pending
  | finished
deriving DecidableEq

/-- Interleaved state of two concurrent `initializeEmbedder` calls over
the shared module-level `embedder` variable; `creations` counts how many
backend instances have been constructed. -/
structure Race2 (H : Type) where
  embedder : Option H
  pcA : RacePC
  pcB : RacePC
  creations : ℕ
deriving DecidableEq

/-- Atomic events of the interleaving: `check` is the synchronous
`if (!embedder)` test, `complete` is the resolution of
`await pipeline(...)` followed by the assignment `embedder = ...`.
Between a caller's `check` and its `complete` the event loop may run the
other caller. -/
inductive RaceOp where
  | checkA
  | checkB
  | completeA
  | completeB
deriving DecidableEq

/-- One step of the interleaving semantics: each caller first tests the
shared variable; a caller that saw `null` later stores its own freshly
created handle, incrementing the creation count. -/
def raceStep {H : Type} (hA hB : H) (s : Race2 H) : RaceOp → Race2 H
  | .checkA =>
    if s.pcA = .ready then
      match s.embedder with
      | some _ => ⟨s.embedder, .finished, s.pcB, s.creations⟩
      | none => ⟨s.embedder, .pending, s.pcB, s.creations⟩
    else s
  | .checkB =>
    if s.pcB = .ready then
      match s.embedder with
      | some _ => ⟨s.embedder, s.pcA, .finished, s.creations⟩
      | none => ⟨s.embedder, s.pcA, .pending, s.creations⟩
    else s
  | .completeA =>
    if s.pcA = .pending then ⟨some hA, .finished, s.pcB, s.creations + 1⟩ else s
  | .completeB =>
    if s.pcB = .pending then ⟨some hB, s.pcA, .finished, s.creations + 1⟩ else s

/-- Run a schedule of interleaved events from a state. -/
def raceRun {H : Type} (hA hB : H) (ops : List RaceOp) (s : Race2 H) : Race2 H :=
  ops.foldl (raceStep hA hB) s

/-- Initial state: `embedder` is `null`, both callers about to run, no
backend created yet. -/
def raceInit {H : Type} : Race2 H := ⟨none, .ready, .ready, 0⟩

/-! ### Helper lemmas -/

lemma dotProduct_self_nonneg : ∀ v : List ℝ, 0 ≤ dotProduct v v
  | [] => by simp [dotProduct]
  | x :: xs => by
    rw [dotProduct]
    exact add_nonneg (mul_self_nonneg x) (dotProduct_self_nonneg xs)

lemma vecNorm_eq_zero_iff (v : List ℝ) : vecNorm v = 0 ↔ dotProduct v v = 0 := by
  rw [vecNorm, Real.sqrt_eq_zero']
  exact ⟨fun h => le_antisymm h (dotProduct_self_nonneg v), fun h => h.le⟩

lemma sumSqDiff_nonneg : ∀ a b : List ℝ, 0 ≤ sumSqDiff a b
  | a :: as, b :: bs => by
    rw [sumSqDiff]
    exact add_nonneg (mul_self_nonneg (a - b)) (sumSqDiff_nonneg as bs)
  | [], _ => by simp [sumSqDiff]
  | _ :: _, [] => by simp [sumSqDiff]

lemma sumSqDiff_comm : ∀ a b : List ℝ, sumSqDiff a b = sumSqDiff b a
  | a :: as, b :: bs => by
    rw [sumSqDiff, sumSqDiff, sumSqDiff_comm as bs,
      show (a - b) * (a - b) = (b - a) * (b - a) by ring]
  | [], [] => rfl
  | [], _ :: _ => by simp [sumSqDiff]
  | _ :: _, [] => by simp [sumSqDiff]

lemma sumSqDiff_self : ∀ v : List ℝ, sumSqDiff v v = 0
  | [] => rfl
  | x :: xs => by rw [sumSqDiff, sumSqDiff_self xs]; ring

lemma sumSqDiff_eq_zero_iff :
    ∀ {a b : List ℝ}, a.length = b.length → (sumSqDiff a b = 0 ↔ a = b)
  | [], [], _ => by simp [sumSqDiff]
  | [], _ :: _, h => by simp at h
  | _ :: _, [], h => by simp at h
  | a :: as, b :: bs, h => by
    have hlen : as.length = bs.length := by simpa using h
    constructor
    · intro h0
      rw [sumSqDiff] at h0
      have h1 :=
        (add_eq_zero_iff_of_nonneg (mul_self_nonneg (a - b)) (sumSqDiff_nonneg as bs)).mp h0
      have hab : a = b := sub_eq_zero.mp (mul_self_eq_zero.mp h1.1)
      have htail : as = bs := (sumSqDiff_eq_zero_iff hlen).mp h1.2
      rw [hab, htail]
    · intro he
      rw [he]
      exact sumSqDiff_self (b :: bs)

lemma dotProduct_map_div (c : ℝ) :
    ∀ v : List ℝ,
      dotProduct (v.map fun x => x / c) (v.map fun x => x / c) = dotProduct v v / (c * c)
  | [] => by simp [dotProduct]
  | x :: xs => by
    simp only [List.map_cons]
    rw [dotProduct, dotProduct, dotProduct_map_div c xs, div_mul_div_comm, ← add_div]

lemma cosineSimilarity_isOk_of_length {a b : List ℝ} (h : a.length = b.length) :
    ∃ s, cosineSimilarity a b = .ok s := by
  rw [cosineSimilarity, if_neg (by simp [h])]
  by_cases hz : dotProduct a a = 0 ∨ dotProduct b b = 0
  · rw [if_pos hz]; exact ⟨0, rfl⟩
  · rw [if_neg hz]; exact ⟨_, rfl⟩

lemma computeSimilarities_ok {q : List ℝ} :
    ∀ {vs : List (List ℝ)} (i : ℕ), (∀ v ∈ vs, v.length = q.length) →
      ∃ sims, computeSimilarities q vs i = .ok sims ∧ sims.length = vs.length
  | [], _, _ => ⟨[], rfl, rfl⟩
  | v :: rest, i, h => by
    obtain ⟨s, hs⟩ :=
      cosineSimilarity_isOk_of_length
        (show q.length = v.length from (h v (List.mem_cons_self v rest)).symm)
    obtain ⟨tail, ht, hlen⟩ :=
      computeSimilarities_ok (i + 1) fun w hw => h w (List.mem_cons_of_mem v hw)
    refine ⟨⟨i, s⟩ :: tail, ?_, by simp [hlen]⟩
    simp only [computeSimilarities, hs, ht]

lemma computeSimilarities_index_lt {q : List ℝ} :
    ∀ {vs : List (List ℝ)} {i : ℕ} {sims : List SimilarityResult},
      computeSimilarities q vs i = .ok sims →
      sims.Pairwise (fun a b => a.index < b.index) ∧ ∀ a ∈ sims, i ≤ a.index
  | [], i, sims, h => by
    simp only [computeSimilarities, Except.ok.injEq] at h
    subst h
    exact ⟨List.Pairwise.nil, by simp⟩
  | v :: rest, i, sims, h => by
    simp only [computeSimilarities] at h
    cases hc : cosineSimilarity q v with
    | error e => rw [hc] at h; exact absurd h (by simp)
    | ok s =>
      cases ht : computeSimilarities q rest (i + 1) with
      | error e => rw [hc, ht] at h; exact absurd h (by simp)
      | ok tail =>
        rw [hc, ht] at h
        simp only [Except.ok.injEq] at h
        subst h
        obtain ⟨hp, hb⟩ := computeSimilarities_index_lt ht
        refine ⟨List.pairwise_cons.mpr ⟨fun b hb' => ?_, hp⟩, fun a ha => ?_⟩
        · exact lt_of_lt_of_le (Nat.lt_succ_self i) (hb b hb')
        · rcases List.mem_cons.mp ha with rfl | ha
          · exact le_rfl
          · exact (Nat.le_succ i).trans (hb a ha)

lemma idx_pairwise_inj {l : List SimilarityResult} :
    l.Pairwise (fun a b => a.index < b.index) →
    ∀ x ∈ l, ∀ y ∈ l, x.index = y.index → x = y := by
  induction l with
  | nil => intro _ x hx; exact absurd hx (List.not_mem_nil x)
  | cons c t ih =>
    intro hp x hx y hy hxy
    have hhead := (List.pairwise_cons.mp hp).1
    have htail := (List.pairwise_cons.mp hp).2
    cases List.mem_cons.mp hx with
    | inl hxc =>
      cases List.mem_cons.mp hy with
      | inl hyc => rw [hxc, hyc]
      | inr hyt =>
        have hlt := hhead y hyt
        rw [hxc] at hxy
        exact absurd hxy (by omega)
    | inr hxt =>
      cases List.mem_cons.mp hy with
      | inl hyc =>
        have hlt := hhead x hxt
        rw [hyc] at hxy
        exact absurd hxy (by omega)
      | inr hyt => exact ih htail x hxt y hyt hxy

lemma pair_sublist_of_idx_lt {l : List SimilarityResult} :
    l.Pairwise (fun a b => a.index < b.index) →
    ∀ x ∈ l, ∀ y ∈ l, x.index < y.index → List.Sublist [x, y] l := by
  induction l with
  | nil => intro _ x hx; exact absurd hx (List.not_mem_nil x)
  | cons c t ih =>
    intro hp x hx y hy hxy
    have hhead := (List.pairwise_cons.mp hp).1
    have htail := (List.pairwise_cons.mp hp).2
    cases List.mem_cons.mp hx with
    | inl hxc =>
      cases List.mem_cons.mp hy with
      | inl hyc =>
        rw [hxc, hyc] at hxy
        exact absurd hxy (lt_irrefl _)
      | inr hyt =>
        rw [hxc]
        exact List.Sublist.cons₂ c (List.singleton_sublist.mpr hyt)
    | inr hxt =>
      cases List.mem_cons.mp hy with
      | inl hyc =>
        have hlt := hhead x hxt
        rw [hyc] at hxy
        exact absurd hxy (by omega)
      | inr hyt => exact List.Sublist.cons c (ih htail x hxt y hyt hxy)

lemma sublist_pair_antisymm {α : Type} {l : List α} (hnd : l.Nodup) {x y : α}
    (h1 : List.Sublist [x, y] l) (h2 : List.Sublist [y, x] l) : x = y := by
  induction l with
  | nil => simp at h1
  | cons c t ih =>
    cases h1 with
    | cons _ h1' =>
      cases h2 with
      | cons _ h2' => exact ih (List.nodup_cons.mp hnd).2 h1' h2'
      | cons₂ _ h2' =>
        exact absurd (h1'.subset (show y ∈ [x, y] by simp)) (List.nodup_cons.mp hnd).1
    | cons₂ _ h1' =>
      cases h2 with
      | cons _ h2' =>
        exact absurd (h2'.subset (show x ∈ [y, x] by simp)) (List.nodup_cons.mp hnd).1
      | cons₂ _ h2' => rfl

lemma simLE_trans : ∀ a b c : SimilarityResult, simLE a b → simLE b c → simLE a c := by
  intro a b c hab hbc
  simp only [simLE, decide_eq_true_eq] at *
  exact le_trans hbc hab

lemma simLE_total : ∀ a b : SimilarityResult, simLE a b || simLE b a := by
  intro a b
  simp only [simLE, Bool.or_eq_true, decide_eq_true_eq]
  exact le_total b.similarity a.similarity

/-- The descending-by-similarity, ties-by-original-index order that the
output of `findSimilar` is claimed to satisfy. -/
def SimOrder (a b : SimilarityResult) : Prop :=
  b.similarity < a.similarity ∨ (a.similarity = b.similarity ∧ a.index < b.index)

/-! ### Claim theorems -/

/-- Claim C3: `cosineSimilarity` fails with the length-mismatch error
exactly when the lengths differ; for equal lengths it succeeds, with
result `0` when either norm is zero and `dot / (‖a‖ * ‖b‖)` otherwise. -/
theorem cosineSimilarity_spec (a b : List ℝ) :
    (a.length ≠ b.length →
      cosineSimilarity a b = .error "Vectors must have the same length") ∧
    (a.length = b.length →
      ((vecNorm a = 0 ∨ vecNorm b = 0) → cosineSimilarity a b = .ok 0) ∧
      (vecNorm a ≠ 0 → vecNorm b ≠ 0 →
        cosineSimilarity a b = .ok (dotProduct a b / (vecNorm a * vecNorm b)))) := by
  refine ⟨fun hne => ?_, fun hlen => ⟨fun hz => ?_, fun ha hb => ?_⟩⟩
  · rw [cosineSimilarity, if_pos hne]
  · rw [cosineSimilarity, if_neg (by simp [hlen]), if_pos]
    rcases hz with hz | hz
    · exact Or.inl ((vecNorm_eq_zero_iff a).mp hz)
    · exact Or.inr ((vecNorm_eq_zero_iff b).mp hz)
  · rw [cosineSimilarity, if_neg (by simp [hlen]), if_neg]
    · rfl
    · rintro (h | h)
      · exact ha ((vecNorm_eq_zero_iff a).mpr h)
      · exact hb ((vecNorm_eq_zero_iff b).mpr h)

/-- Witness for C3: a mismatched pair errors, a zero vector gives `0`,
and `[1]` against `[2]` gives `2 / (1 * 2) = 1`. -/
theorem cosineSimilarity_spec_witness :
    cosineSimilarity [(1 : ℝ)] [1, 2] = .error "Vectors must have the same length" ∧
    cosineSimilarity [(0 : ℝ)] [5] = .ok 0 ∧
    cosineSimilarity [(1 : ℝ)] [2] = .ok 1 := by
  have e1 : vecNorm [(1 : ℝ)] = 1 := by
    have h : dotProduct [(1 : ℝ)] [1] = 1 := by norm_num [dotProduct]
    rw [vecNorm, h, Real.sqrt_one]
  have e2 : vecNorm [(2 : ℝ)] = 2 := by
    have h : dotProduct [(2 : ℝ)] [2] = 4 := by norm_num [dotProduct]
    rw [vecNorm, h, show (4 : ℝ) = 2 ^ 2 by norm_num, Real.sqrt_sq (by norm_num)]
  have e0 : vecNorm [(0 : ℝ)] = 0 := by
    have h : dotProduct [(0 : ℝ)] [0] = 0 := by norm_num [dotProduct]
    rw [vecNorm, h, Real.sqrt_zero]
  refine ⟨(cosineSimilarity_spec [1] [1, 2]).1 (by simp), ?_, ?_⟩
  · exact ((cosineSimilarity_spec [0] [5]).2 (by simp)).1 (Or.inl e0)
  · have h := ((cosineSimilarity_spec [1] [2]).2 (by simp)).2
      (by rw [e1]; norm_num) (by rw [e2]; norm_num)
    have e3 : dotProduct [(1 : ℝ)] [2] = 2 := by norm_num [dotProduct]
    rw [h, e1, e2, e3]
    norm_num

/-- Claim C7: `euclideanDistance` fails with the length-mismatch error
when the lengths differ; for equal lengths it returns
`sqrt (Σ (aᵢ - bᵢ)²)`, which is nonnegative and zero exactly when the
vectors are identical; and the function is symmetric. -/
theorem euclideanDistance_spec (a b : List ℝ) :
    (a.length ≠ b.length →
      euclideanDistance a b = .error "Vectors must have the same length") ∧
    (a.length = b.length →
      euclideanDistance a b = .ok (Real.sqrt (sumSqDiff a b)) ∧
      0 ≤ Real.sqrt (sumSqDiff a b) ∧
      (Real.sqrt (sumSqDiff a b) = 0 ↔ a = b)) ∧
    euclideanDistance a b = euclideanDistance b a := by
  refine ⟨fun hne => ?_, fun hlen => ⟨?_, Real.sqrt_nonneg _, ?_⟩, ?_⟩
  · rw [euclideanDistance, if_pos hne]
  · rw [euclideanDistance, if_neg (by simp [hlen])]
  · rw [Real.sqrt_eq_zero (sumSqDiff_nonneg a b)]
    exact sumSqDiff_eq_zero_iff hlen
  · by_cases hl : a.length = b.length
    · rw [euclideanDistance, euclideanDistance, if_neg (by simp [hl]),
        if_neg (by simp [hl]), sumSqDiff_comm]
    · rw [euclideanDistance, euclideanDistance, if_pos hl, if_pos (fun h => hl h.symm)]

/-- Witness for C7: `euclideanDistance([0,0],[3,4]) = 5` and a
mismatched pair errors. -/
theorem euclideanDistance_spec_witness :
    euclideanDistance [(0 : ℝ), 0] [3, 4] = .ok 5 ∧
    euclideanDistance [(1 : ℝ)] [2, 3] = .error "Vectors must have the same length" := by
  constructor
  · have h := ((euclideanDistance_spec [0, 0] [3, 4]).2.1 (by simp)).1
    have e : sumSqDiff [(0 : ℝ), 0] [3, 4] = 25 := by norm_num [sumSqDiff]
    rw [h, e, show (25 : ℝ) = 5 ^ 2 by norm_num, Real.sqrt_sq (by norm_num)]
  · exact (euclideanDistance_spec [1] [2, 3]).1 (by simp)

/-- Claim C6: `normalizeVector` returns the input unchanged when its
norm is zero, and otherwise returns a vector of norm `1`.  (The model is
pure, so the input list is never mutated.) -/
theorem normalizeVector_spec (v : List ℝ) :
    (vecNorm v = 0 → normalizeVector v = v) ∧
    (vecNorm v ≠ 0 → vecNorm (normalizeVector v) = 1) := by
  constructor
  · intro h
    rw [vecNorm] at h
    show (if Real.sqrt (dotProduct v v) = 0 then v else _) = v
    rw [if_pos h]
  · intro h
    have hnz : dotProduct v v ≠ 0 := fun h0 => h (by rw [vecNorm, h0, Real.sqrt_zero])
    rw [vecNorm] at h
    show vecNorm (if Real.sqrt (dotProduct v v) = 0 then v
      else v.map fun val => val / Real.sqrt (dotProduct v v)) = 1
    rw [if_neg h, vecNorm, dotProduct_map_div,
      Real.mul_self_sqrt (dotProduct_self_nonneg v), div_self hnz, Real.sqrt_one]

/-- Witness for C6: the zero vector is returned unchanged, and
`[3, 4]` normalizes to a vector of norm `1`. -/
theorem normalizeVector_spec_witness :
    normalizeVector [(0 : ℝ), 0] = [0, 0] ∧
    vecNorm (normalizeVector [(3 : ℝ), 4]) = 1 := by
  constructor
  · apply (normalizeVector_spec [0, 0]).1
    have h : dotProduct [(0 : ℝ), 0] [0, 0] = 0 := by norm_num [dotProduct]
    rw [vecNorm, h, Real.sqrt_zero]
  · apply (normalizeVector_spec [3, 4]).2
    have h : dotProduct [(3 : ℝ), 4] [3, 4] = 25 := by norm_num [dotProduct]
    rw [vecNorm, h, show (25 : ℝ) = 5 ^ 2 by norm_num, Real.sqrt_sq (by norm_num)]
    norm_num

/-- Claim C8: the similarity label uses strict thresholds `0.8`, `0.6`,
`0.4`, boundary values falling into the lower bucket, and the inline
ternary of the `/similarity` route agrees with `getSimilarity`. -/
theorem getSimilarity_thresholds (s : ℝ) :
    (0.8 < s → getSimilarity s = "Very similar") ∧
    (0.6 < s → s ≤ 0.8 → getSimilarity s = "Similar") ∧
    (0.4 < s → s ≤ 0.6 → getSimilarity s = "Somewhat similar") ∧
    (s ≤ 0.4 → getSimilarity s = "Not similar") ∧
    getSimilarity s = similarityInterpretation s := by
  refine ⟨fun h1 => ?_, fun h1 h2 => ?_, fun h1 h2 => ?_, fun h1 => ?_, rfl⟩
  · rw [getSimilarity, if_pos h1]
  · rw [getSimilarity, if_neg (not_lt.mpr h2), if_pos h1]
  · rw [getSimilarity, if_neg (not_lt.mpr (h2.trans (by norm_num))),
      if_neg (not_lt.mpr h2), if_pos h1]
  · rw [getSimilarity, if_neg (not_lt.mpr (h1.trans (by norm_num))),
      if_neg (not_lt.mpr (h1.trans (by norm_num))), if_neg (not_lt.mpr h1)]

/-- Witness for C8: the boundary values `0.8` and `0.4` fall into the
lower buckets, and `1` is "Very similar". -/
theorem getSimilarity_thresholds_witness :
    getSimilarity 0.8 = "Similar" ∧
    getSimilarity 0.4 = "Not similar" ∧
    getSimilarity 1 = "Very similar" :=
  ⟨(getSimilarity_thresholds 0.8).2.1 (by norm_num) le_rfl,
   (getSimilarity_thresholds 0.4).2.2.2.1 le_rfl,
   (getSimilarity_thresholds 1).1 (by norm_num)⟩

/-- Claim C10: on the two empty vectors, `cosineSimilarity` returns `0`
through the zero-norm fallback and `euclideanDistance` returns `0`;
neither call fails. -/
theorem emptyVectors_ok :
    cosineSimilarity ([] : List ℝ) [] = .ok 0 ∧
    euclideanDistance ([] : List ℝ) [] = .ok 0 := by
  constructor
  · have hz : dotProduct ([] : List ℝ) [] = 0 := rfl
    rw [cosineSimilarity, if_neg (by simp), if_pos (Or.inl hz)]
  · rw [euclideanDistance, if_neg (by simp)]
    rw [show sumSqDiff ([] : List ℝ) [] = 0 from rfl, Real.sqrt_zero]

/-- Claim C2: once a backend handle exists, `initializeEmbedder` returns
it unchanged for any model name, `vectorize` and `vectorizeBatch` keep
the state and use that handle, and `getModelInfo.isInitialized` is
`true` exactly when a handle exists. -/
theorem embedderSingleton_spec {H : Type} (pipeline : String → Except String H)
    (embed : H → String → Pooling → Bool → List ℝ)
    (embedBatch : H → List String → Pooling → Bool → List (List ℝ))
    (modelName text : String) (texts : List String) (options : EmbedOptions)
    (h : H) (st : Option H) :
    initializeEmbedder pipeline modelName (some h) = (some h, .ok h) ∧
    vectorize pipeline embed text options (some h) =
      (some h, .ok (embed h text options.pooling options.normalize)) ∧
    vectorizeBatch pipeline embedBatch texts options (some h) =
      (some h, .ok (embedBatch h texts options.pooling options.normalize)) ∧
    ((getModelInfo st).isInitialized = true ↔ ∃ h₂, st = some h₂) := by
  refine ⟨rfl, rfl, rfl, ?_⟩
  cases st <;> simp [getModelInfo]

/-- Claim C9: a failed backend creation propagates the error, leaves the
singleton uninitialized (`isInitialized = false`), and a later call with
a succeeding factory creates the backend. -/
theorem initFailure_not_poisoning {H : Type} (pipeline pipeline₂ : String → Except String H)
    (name name₂ : String) (e : String) (h : H)
    (hfail : pipeline name = .error e) (hok : pipeline₂ name₂ = .ok h) :
    initializeEmbedder pipeline name (none : Option H) = (none, .error e) ∧
    (getModelInfo (none : Option H)).isInitialized = false ∧
    initializeEmbedder pipeline₂ name₂ (none : Option H) = (some h, .ok h) := by
  refine ⟨?_, rfl, ?_⟩ <;> simp [initializeEmbedder, hfail, hok]

/-- Witness for C9: concrete failing and succeeding factories over
`ℕ` handles. -/
theorem initFailure_not_poisoning_witness :
    initializeEmbedder (fun _ => (.error "load failed" : Except String ℕ)) "model-a" none =
      (none, .error "load failed") ∧
    (getModelInfo (none : Option ℕ)).isInitialized = false ∧
    initializeEmbedder (fun _ => (.ok 7 : Except String ℕ)) "model-b" none =
      (some 7, .ok 7) :=
  initFailure_not_poisoning _ _ "model-a" "model-b" "load failed" 7 rfl rfl

/-- Claim C1 (amended): when every candidate has the query's length,
`findSimilar` succeeds and returns exactly `min topK (len candidates)`
results for `topK ≥ 0` (so `0` results for `topK = 0`, and a `topK`
beyond the candidate count is clamped); for `topK < 0`, JavaScript
`slice(0, topK)` semantics yield the first `max (len + topK) 0` results
instead of an empty sequence. -/
theorem findSimilar_length_spec (q : List ℝ) (vs : List (List ℝ)) (k : Int)
    (h : ∀ v ∈ vs, v.length = q.length) :
    ∃ out, findSimilar q vs k = .ok out ∧
      out.length =
        if 0 ≤ k then min k.toNat vs.length else ((vs.length : Int) + k).toNat := by
  obtain ⟨sims, hs, hlen⟩ := computeSimilarities_ok 0 h
  refine ⟨jsSlice (sims.mergeSort simLE) k, by rw [findSimilar, hs], ?_⟩
  rw [jsSlice, List.length_take, List.length_mergeSort, hlen]
  by_cases hk : k < 0
  · rw [if_pos hk, if_neg (not_le.mpr hk)]
    omega
  · rw [if_neg hk, if_pos (not_lt.mp hk)]

/-- Witness for C1 (amended): two same-length candidates with `topK = 5`
give `min 5 2 = 2` results. -/
theorem findSimilar_length_spec_witness :
    ∃ out, findSimilar [(1 : ℝ)] [[1], [1]] 5 = .ok out ∧ out.length = 2 := by
  obtain ⟨out, h1, h2⟩ := findSimilar_length_spec [1] [[1], [1]] 5 (by simp)
  refine ⟨out, h1, ?_⟩
  rw [h2, if_pos (by norm_num)]
  rfl

/-- Counterexample to C1 as stated: with two candidates and
`topK = -1 ≤ 0` the result has length `1`, not `0`, because JavaScript
`slice(0, -1)` drops only the last element. -/
theorem findSimilar_negative_topK_counterexample :
    (findSimilar [(1 : ℝ)] [[1], [1]] (-1)).map List.length = .ok 1 := by
  have hd1 : dotProduct [(1 : ℝ)] [1] = 1 := by norm_num [dotProduct]
  have hcos : cosineSimilarity [(1 : ℝ)] [1] = .ok 1 := by
    rw [cosineSimilarity, if_neg (by simp), if_neg (by simp [hd1])]
    rw [hd1, Real.sqrt_one]
    norm_num
  have hsims : computeSimilarities [(1 : ℝ)] [[1], [1]] 0 = .ok [⟨0, 1⟩, ⟨1, 1⟩] := by
    simp only [computeSimilarities, hcos]
  rw [findSimilar, hsims]
  show Except.ok (jsSlice (List.mergeSort [⟨0, 1⟩, ⟨1, 1⟩] simLE) (-1)).length = .ok 1
  rw [jsSlice, List.length_take, List.length_mergeSort]
  norm_num

/-- Claim C5: whenever `findSimilar` succeeds, its output is pairwise in
`SimOrder`: strictly descending by similarity, with equal similarities
ordered by their original candidate index (stable ties). -/
theorem findSimilar_sorted_stable (q : List ℝ) (vs : List (List ℝ)) (k : Int)
    (out : List SimilarityResult) (h : findSimilar q vs k = .ok out) :
    out.Pairwise SimOrder := by
  rw [findSimilar] at h
  cases hc : computeSimilarities q vs 0 with
  | error e => rw [hc] at h; exact absurd h (by simp)
  | ok sims =>
    rw [hc] at h
    have hout : jsSlice (sims.mergeSort simLE) k = out := by simpa using h
    obtain ⟨hp, -⟩ := computeSimilarities_index_lt hc
    have hnd_sims : sims.Nodup := by
      refine hp.imp ?_
      intro a b hlt heq
      rw [heq] at hlt
      exact lt_irrefl _ hlt
    have hnd : (sims.mergeSort simLE).Nodup :=
      ((List.mergeSort_perm sims simLE).nodup_iff).mpr hnd_sims
    have hsorted := List.sorted_mergeSort simLE_trans simLE_total sims
    have hstable : (sims.mergeSort simLE).Pairwise SimOrder := by
      rw [List.pairwise_iff_forall_sublist]
      intro x y hxy
      have hle : simLE x y := List.pairwise_iff_forall_sublist.mp hsorted hxy
      have hyx : y.similarity ≤ x.similarity := by
        simpa [simLE] using hle
      rcases lt_or_eq_of_le hyx with hlt | heq
      · exact Or.inl hlt
      · have hx : x ∈ sims := List.mem_mergeSort.mp (hxy.subset (by simp))
        have hy : y ∈ sims := List.mem_mergeSort.mp (hxy.subset (by simp))
        rcases Nat.lt_trichotomy x.index y.index with hi | hi | hi
        · exact Or.inr ⟨heq.symm, hi⟩
        · have hxeqy : x = y := idx_pairwise_inj hp x hx y hy hi
          subst hxeqy
          exact absurd (List.pairwise_iff_forall_sublist.mp hnd hxy) (by simp)
        · have hsub : List.Sublist [y, x] sims := pair_sublist_of_idx_lt hp y hy x hx hi
          have hyx' : simLE y x := by
            simp [simLE, heq]
          have hsub2 : List.Sublist [y, x] (sims.mergeSort simLE) :=
            List.pair_sublist_mergeSort simLE_trans simLE_total hyx' hsub
          have hxeqy : x = y := sublist_pair_antisymm hnd hxy hsub2
          subst hxeqy
          exact absurd hi (lt_irrefl _)
    rw [← hout, jsSlice]
    exact List.Pairwise.sublist (List.take_sublist _ _) hstable

/-- Witness for C5: `findSimilar([1], [[1], [-1]], 5)` succeeds with
output `[(0, 1), (1, -1)]`, which is pairwise in `SimOrder`. -/
theorem findSimilar_sorted_stable_witness :
    findSimilar [(1 : ℝ)] [[1], [-1]] 5 = .ok [⟨0, 1⟩, ⟨1, -1⟩] ∧
    List.Pairwise SimOrder [(⟨0, 1⟩ : SimilarityResult), ⟨1, -1⟩] := by
  have hd1 : dotProduct [(1 : ℝ)] [1] = 1 := by norm_num [dotProduct]
  have hcos1 : cosineSimilarity [(1 : ℝ)] [1] = .ok 1 := by
    rw [cosineSimilarity, if_neg (by simp), if_neg (by simp [hd1])]
    rw [hd1, Real.sqrt_one]
    norm_num
  have hd2 : dotProduct [(1 : ℝ)] [-1] = -1 := by norm_num [dotProduct]
  have hd3 : dotProduct [(-1 : ℝ)] [-1] = 1 := by norm_num [dotProduct]
  have hcos2 : cosineSimilarity [(1 : ℝ)] [-1] = .ok (-1) := by
    rw [cosineSimilarity, if_neg (by simp), if_neg (by simp [hd1, hd3])]
    rw [hd2, hd1, hd3, Real.sqrt_one]
    norm_num
  have hsims : computeSimilarities [(1 : ℝ)] [[1], [-1]] 0 = .ok [⟨0, 1⟩, ⟨1, -1⟩] := by
    simp only [computeSimilarities, hcos1, hcos2]
  have hsorted :
      List.Pairwise (fun a b => simLE a b) [(⟨0, 1⟩ : SimilarityResult), ⟨1, -1⟩] := by
    refine List.pairwise_cons.mpr ⟨?_, by simp⟩
    intro b hb
    rw [List.mem_singleton.mp hb]
    simp only [simLE, decide_eq_true_eq]
    norm_num
  have hms :
      List.mergeSort [(⟨0, 1⟩ : SimilarityResult), ⟨1, -1⟩] simLE = [⟨0, 1⟩, ⟨1, -1⟩] :=
    List.mergeSort_of_sorted hsorted
  have hfind : findSimilar [(1 : ℝ)] [[1], [-1]] 5 = .ok [⟨0, 1⟩, ⟨1, -1⟩] := by
    rw [findSimilar, hsims]
    show Except.ok (jsSlice (List.mergeSort [⟨0, 1⟩, ⟨1, -1⟩] simLE) 5) = _
    rw [hms, jsSlice]
    norm_num
  exact ⟨hfind, findSimilar_sorted_stable _ _ _ _ hfind⟩

/-- Claim C4 (code bug): two `initializeEmbedder` calls racing before
any backend exists can both observe `embedder === null` (their `check`
steps run before either assignment), so both create a backend: the
schedule checkA, checkB, completeA, completeB creates two backends, the
second overwriting the first, contradicting single-flight
initialization. -/
theorem race_creates_two_backends :
    raceRun 0 1 [RaceOp.checkA, RaceOp.checkB, RaceOp.completeA, RaceOp.completeB] raceInit =
      ⟨some 1, RacePC.finished, RacePC.finished, 2⟩ :=
  rfl

end Vectorizer
